import Mathlib

/-!
Verification of the cart-service logic of `simple_shop.py`.

The shallow embedding translates the module-level functions of the source
file into pure Lean functions.  Python's mutable cart list becomes an
explicit `List CartLine` argument, and every operation returns the result
value of the source function together with the cart list as it stands
after the call.  Python integers are modelled by `Int`.
-/

namespace SimpleShop

/-- A catalog entry: the `{"name": ..., "price": ...}` dict of `PRODUCTS`. -/
structure Product where
  name : String
  price : Int
deriving DecidableEq, Repr

/-- The static product dictionary `PRODUCTS`, as its (key, value) pairs in
source order. -/
def PRODUCTS : List (Int × Product) :=
  [ (1, ⟨"Laptop", 120000⟩)
  , (2, ⟨"Smartphone", 60000⟩)
  , (3, ⟨"Headphones", 5000⟩)
  , (4, ⟨"Keyboard", 2500⟩)
  , (5, ⟨"Mouse", 1500⟩) ]

/-- Dictionary lookup `PRODUCTS.get(pid)`. -/
def productsGet (pid : Int) : Option Product :=
  (PRODUCTS.find? (fun e => e.1 == pid)).map (fun e => e.2)

/-- A cart entry: the `{"product_id": ..., "quantity": ...}` dict. -/
structure CartLine where
  product_id : Int
  quantity : Int
deriving DecidableEq, Repr

/-- A cart: the Python list of cart-item dicts. -/
abbrev Cart := List CartLine

/-- The `(success, error-message)` pair returned by `add_to_cart` and
`remove_from_cart`. -/
abbrev ShopResult := Bool × Option String

/-- Error message returned when the product id is not a key of `PRODUCTS`. -/
def InvalidProduct : String := "Invalid Product ID"

/-- Error message returned when the requested quantity is `<= 0`. -/
def InvalidQuantity : String := "Quantity must be at least 1"

/-- Error message returned when no cart line exists for the product id. -/
def ItemNotFound : String := "Item not found in cart"

/-- `find_cart_item(cart_list, product_id)`: linear scan returning the first
item whose `product_id` matches, else `None`. -/
def find_cart_item (cart_list : Cart) (product_id : Int) : Option CartLine :=
  match cart_list with
  | [] => none
  | item :: rest =>
      if item.product_id = product_id then some item
      else find_cart_item rest product_id

/-- In-place mutation of the first item with the given product id
(`existing_item["quantity"] += ...` / `-= ...` acts on the dict returned by
`find_cart_item`, which is the first one with that id). -/
def updateFirst (cart_list : Cart) (product_id : Int) (f : CartLine → CartLine) :
    Cart :=
  match cart_list with
  | [] => []
  | item :: rest =>
      if item.product_id = product_id then f item :: rest
      else item :: updateFirst rest product_id f

/-- `cart_list.remove(existing_item)` where `existing_item` is the first item
with the given product id: deletes that first matching item. -/
def removeFirst (cart_list : Cart) (product_id : Int) : Cart :=
  match cart_list with
  | [] => []
  | item :: rest =>
      if item.product_id = product_id then rest
      else item :: removeFirst rest product_id

/-- `add_to_cart(cart_list, product_id, quantity)`.  Returns the
`(success, error)` pair and the cart list after the call. -/
def add_to_cart (cart_list : Cart) (product_id quantity : Int) :
    ShopResult × Cart :=
  if productsGet product_id = none then
    ((false, some InvalidProduct), cart_list)
  else if quantity ≤ 0 then
    ((false, some InvalidQuantity), cart_list)
  else
    match find_cart_item cart_list product_id with
    | some _ =>
        ((true, none),
         updateFirst cart_list product_id
           (fun item => { item with quantity := item.quantity + quantity }))
    | none =>
        ((true, none), cart_list ++ [⟨product_id, quantity⟩])

/-- `remove_from_cart(cart_list, product_id, quantity)`.  Returns the
`(success, error)` pair and the cart list after the call. -/
def remove_from_cart (cart_list : Cart) (product_id quantity : Int) :
    ShopResult × Cart :=
  match find_cart_item cart_list product_id with
  | none => ((false, some ItemNotFound), cart_list)
  | some existing_item =>
      if quantity ≤ 0 then
        ((false, some InvalidQuantity), cart_list)
      else if existing_item.quantity ≤ quantity then
        ((true, none), removeFirst cart_list product_id)
      else
        ((true, none),
         updateFirst cart_list product_id
           (fun item => { item with quantity := item.quantity - quantity }))

/-- One entry of the list built by `view_cart`. -/
structure LineDetail where
  product_id : Int
  name : String
  price : Int
  quantity : Int
  subtotal : Int
deriving DecidableEq, Repr

/-- `view_cart(cart_list)`: one detail record per line whose product id
resolves in `PRODUCTS`; unresolvable lines are skipped. -/
def view_cart (cart_list : Cart) : List LineDetail :=
  match cart_list with
  | [] => []
  | item :: rest =>
      match productsGet item.product_id with
      | some prod =>
          ⟨item.product_id, prod.name, prod.price, item.quantity,
           prod.price * item.quantity⟩ :: view_cart rest
      | none => view_cart rest

/-- `calculate_total(cart_list)`: running sum of `price * quantity` over the
lines whose product id resolves in `PRODUCTS`. -/
def calculate_total (cart_list : Cart) : Int :=
  match cart_list with
  | [] => 0
  | item :: rest =>
      (match productsGet item.product_id with
       | some prod => prod.price * item.quantity
       | none => 0) + calculate_total rest

/-- `checkout(cart_list)`: the total before clearing, and the cleared cart. -/
def checkout (cart_list : Cart) : Int × Cart :=
  (calculate_total cart_list, [])

/-- `show_products()`: the `(id, name, price)` triples of `PRODUCTS` in
dictionary (= insertion) order. -/
def show_products : List (Int × String × Int) :=
  PRODUCTS.map (fun e => (e.1, e.2.name, e.2.price))

/-- A cart satisfies the spec invariant when every line references a catalog
product and carries a positive quantity. -/
def WF (cart : Cart) : Prop :=
  ∀ l ∈ cart, productsGet l.product_id ≠ none ∧ 0 < l.quantity

/-- Carts reachable from the empty cart through the cart-service operations. -/
inductive Reachable : Cart → Prop
  | empty : Reachable []
  | add (cart : Cart) (pid q : Int) :
      Reachable cart → Reachable (add_to_cart cart pid q).2
  | remove (cart : Cart) (pid q : Int) :
      Reachable cart → Reachable (remove_from_cart cart pid q).2
  | checkout (cart : Cart) : Reachable cart → Reachable (checkout cart).2

/-- The linear scan finds nothing exactly when no line carries the id. -/
theorem find_cart_item_eq_none_iff (cart : Cart) (pid : Int) :
    find_cart_item cart pid = none ↔ ∀ l ∈ cart, l.product_id ≠ pid := by
  induction cart with
  | nil => simp [find_cart_item]
  | cons item rest ih =>
      by_cases h : item.product_id = pid
      · simp [find_cart_item, h]
      · simp [find_cart_item, h, ih]

/-- On a list whose prefix has no line for `pid`, the scan returns the first
line that does. -/
theorem find_cart_item_of_clean (pre post : Cart) (item : CartLine) (pid : Int)
    (hpre : ∀ l ∈ pre, l.product_id ≠ pid) (hitem : item.product_id = pid) :
    find_cart_item (pre ++ item :: post) pid = some item := by
  induction pre with
  | nil => simp [find_cart_item, hitem]
  | cons a pre ih =>
      have ha : a.product_id ≠ pid := hpre a (by simp)
      simp only [List.cons_append, find_cart_item, if_neg ha]
      exact ih (fun l hl => hpre l (by simp [hl]))

/-- On such a list, `updateFirst` rewrites exactly that first line. -/
theorem updateFirst_of_clean (pre post : Cart) (item : CartLine) (pid : Int)
    (f : CartLine → CartLine)
    (hpre : ∀ l ∈ pre, l.product_id ≠ pid) (hitem : item.product_id = pid) :
    updateFirst (pre ++ item :: post) pid f = pre ++ f item :: post := by
  induction pre with
  | nil => simp [updateFirst, hitem]
  | cons a pre ih =>
      have ha : a.product_id ≠ pid := hpre a (by simp)
      simp only [List.cons_append, updateFirst, if_neg ha, List.cons.injEq,
        true_and]
      exact ih (fun l hl => hpre l (by simp [hl]))

/-- On such a list, `removeFirst` deletes exactly that first line. -/
theorem removeFirst_of_clean (pre post : Cart) (item : CartLine) (pid : Int)
    (hpre : ∀ l ∈ pre, l.product_id ≠ pid) (hitem : item.product_id = pid) :
    removeFirst (pre ++ item :: post) pid = pre ++ post := by
  induction pre with
  | nil => simp [removeFirst, hitem]
  | cons a pre ih =>
      have ha : a.product_id ≠ pid := hpre a (by simp)
      simp only [List.cons_append, removeFirst, if_neg ha, List.cons.injEq,
        true_and]
      exact ih (fun l hl => hpre l (by simp [hl]))

/-- A successful scan splits the cart at the first line carrying the id. -/
theorem find_cart_item_some_decomp (cart : Cart) (pid : Int) (item : CartLine)
    (h : find_cart_item cart pid = some item) :
    ∃ pre post, cart = pre ++ item :: post ∧ (∀ l ∈ pre, l.product_id ≠ pid) ∧
      item.product_id = pid := by
  induction cart with
  | nil => simp [find_cart_item] at h
  | cons a rest ih =>
      by_cases ha : a.product_id = pid
      · have haitem : a = item := by simpa [find_cart_item, ha] using h
        subst haitem
        exact ⟨[], rest, rfl, by simp, ha⟩
      · have h' : find_cart_item rest pid = some item := by
          simpa [find_cart_item, ha] using h
        obtain ⟨pre, post, hc, hclean, hpid⟩ := ih h'
        refine ⟨a :: pre, post, by simp [hc], ?_, hpid⟩
        intro l hl
        rcases List.mem_cons.mp hl with rfl | hl
        · exact ha
        · exact hclean l hl

/-- `add_to_cart` keeps every line catalog-backed with positive quantity. -/
theorem add_to_cart_preserves_WF (cart : Cart) (pid q : Int) (h : WF cart) :
    WF (add_to_cart cart pid q).2 := by
  by_cases hp : productsGet pid = none
  · simpa [add_to_cart, hp] using h
  by_cases hq : q ≤ 0
  · simpa [add_to_cart, hp, hq] using h
  cases hfind : find_cart_item cart pid with
  | none =>
      simp only [add_to_cart, if_neg hp, if_neg hq, hfind]
      intro l hl
      rcases List.mem_append.mp hl with hl | hl
      · exact h l hl
      · have hl' : l = ⟨pid, q⟩ := by simpa using hl
        subst hl'
        exact ⟨hp, lt_of_not_le hq⟩
  | some item =>
      obtain ⟨pre, post, hc, hclean, hpid⟩ :=
        find_cart_item_some_decomp cart pid item hfind
      have hitem : productsGet item.product_id ≠ none ∧ 0 < item.quantity :=
        h item (by rw [hc]; simp)
      subst hc
      simp only [add_to_cart, if_neg hp, if_neg hq, hfind,
        updateFirst_of_clean pre post item pid _ hclean hpid]
      intro l hl
      rcases List.mem_append.mp hl with hl | hl
      · exact h l (List.mem_append.mpr (Or.inl hl))
      · rcases List.mem_cons.mp hl with rfl | hl
        · refine ⟨hitem.1, ?_⟩
          show 0 < item.quantity + q
          have := hitem.2
          have := lt_of_not_le hq
          omega
        · exact h l (by simp [hl])

/-- `remove_from_cart` keeps every line catalog-backed with positive
quantity. -/
theorem remove_from_cart_preserves_WF (cart : Cart) (pid q : Int) (h : WF cart) :
    WF (remove_from_cart cart pid q).2 := by
  cases hfind : find_cart_item cart pid with
  | none => simpa [remove_from_cart, hfind] using h
  | some item =>
      obtain ⟨pre, post, hc, hclean, hpid⟩ :=
        find_cart_item_some_decomp cart pid item hfind
      have hitem : productsGet item.product_id ≠ none ∧ 0 < item.quantity :=
        h item (by rw [hc]; simp)
      by_cases hq : q ≤ 0
      · simpa [remove_from_cart, hfind, hq] using h
      subst hc
      by_cases hge : item.quantity ≤ q
      · simp only [remove_from_cart, hfind, if_neg hq, if_pos hge,
          removeFirst_of_clean pre post item pid hclean hpid]
        intro l hl
        rcases List.mem_append.mp hl with hl | hl
        · exact h l (by simp [hl])
        · exact h l (by simp [hl])
      · simp only [remove_from_cart, hfind, if_neg hq, if_neg hge,
          updateFirst_of_clean pre post item pid _ hclean hpid]
        intro l hl
        rcases List.mem_append.mp hl with hl | hl
        · exact h l (by simp [hl])
        · rcases List.mem_cons.mp hl with rfl | hl
          · refine ⟨hitem.1, ?_⟩
            show 0 < item.quantity - q
            have := hitem.2
            omega
          · exact h l (by simp [hl])

/-- C1: `add_to_cart` fails with the invalid-product error when the id is
not a catalog key (this check comes first), fails with the invalid-quantity
error when the id is a catalog key and the quantity is `<= 0`, and otherwise
succeeds: with no existing line for the id it appends `{productId, quantity}`
at the end, and with an existing line it increments that line's quantity in
place, every other line keeping its value and position. -/
theorem add_to_cart_spec (cart : Cart) (pid q : Int) :
    (productsGet pid = none →
      add_to_cart cart pid q = ((false, some InvalidProduct), cart))
  ∧ (productsGet pid ≠ none → q ≤ 0 →
      add_to_cart cart pid q = ((false, some InvalidQuantity), cart))
  ∧ (productsGet pid ≠ none → 0 < q → find_cart_item cart pid = none →
      add_to_cart cart pid q = ((true, none), cart ++ [⟨pid, q⟩]))
  ∧ (productsGet pid ≠ none → 0 < q →
      ∀ item, find_cart_item cart pid = some item →
        ∃ pre post, cart = pre ++ item :: post
          ∧ (∀ l ∈ pre, l.product_id ≠ pid)
          ∧ item.product_id = pid
          ∧ add_to_cart cart pid q =
              ((true, none),
               pre ++ ⟨item.product_id, item.quantity + q⟩ :: post)) := by
  refine ⟨?_, ?_, ?_, ?_⟩
  · intro hp
    simp [add_to_cart, hp]
  · intro hp hq
    simp [add_to_cart, hp, hq]
  · intro hp hq hfind
    have hq' : ¬ q ≤ 0 := not_le.mpr hq
    simp [add_to_cart, hp, hq', hfind]
  · intro hp hq item hfind
    obtain ⟨pre, post, hc, hclean, hpid⟩ :=
      find_cart_item_some_decomp cart pid item hfind
    have hq' : ¬ q ≤ 0 := not_le.mpr hq
    refine ⟨pre, post, hc, hclean, hpid, ?_⟩
    subst hc
    simp [add_to_cart, hp, hq', hfind,
      updateFirst_of_clean pre post item pid _ hclean hpid]

/-- C1 witness: instantiating the specification on concrete carts. -/
theorem add_to_cart_spec_witness :
    add_to_cart ([] : Cart) 99 1 = ((false, some InvalidProduct), [])
  ∧ add_to_cart [⟨2, 1⟩] 2 0 = ((false, some InvalidQuantity), [⟨2, 1⟩])
  ∧ add_to_cart [⟨2, 1⟩] 3 4 = ((true, none), [⟨2, 1⟩, ⟨3, 4⟩]) :=
  ⟨(add_to_cart_spec [] 99 1).1 (by decide),
   (add_to_cart_spec [⟨2, 1⟩] 2 0).2.1 (by decide) (by decide),
   (add_to_cart_spec [⟨2, 1⟩] 3 4).2.2.1 (by decide) (by decide) (by decide)⟩

/-- C6: a failing `add_to_cart` — unknown product id, or quantity `<= 0` on
a known id — returns the matching error and leaves the cart exactly as it
was. -/
theorem add_to_cart_failure_spec (cart : Cart) (pid q : Int) :
    (productsGet pid = none →
      add_to_cart cart pid q = ((false, some InvalidProduct), cart))
  ∧ (productsGet pid ≠ none → q ≤ 0 →
      add_to_cart cart pid q = ((false, some InvalidQuantity), cart))
  ∧ ((productsGet pid = none ∨ q ≤ 0) →
      (add_to_cart cart pid q).1.1 = false
      ∧ (add_to_cart cart pid q).2 = cart) := by
  refine ⟨?_, ?_, ?_⟩
  · intro hp
    simp [add_to_cart, hp]
  · intro hp hq
    simp [add_to_cart, hp, hq]
  · intro h
    by_cases hp : productsGet pid = none
    · simp [add_to_cart, hp]
    · have hq : q ≤ 0 := h.resolve_left hp
      simp [add_to_cart, hp, hq]

/-- C6 witness: both failure modes on a one-line cart. -/
theorem add_to_cart_failure_spec_witness :
    add_to_cart [⟨2, 1⟩] 99 5 = ((false, some InvalidProduct), [⟨2, 1⟩])
  ∧ add_to_cart [⟨2, 1⟩] 1 (-3) = ((false, some InvalidQuantity), [⟨2, 1⟩]) :=
  ⟨(add_to_cart_failure_spec [⟨2, 1⟩] 99 5).1 (by decide),
   (add_to_cart_failure_spec [⟨2, 1⟩] 1 (-3)).2.1 (by decide) (by decide)⟩

/-- C2: `remove_from_cart` fails with the item-not-found error when no line
carries the id (this check comes first), fails with the invalid-quantity
error when a line exists and the quantity is `<= 0`, and otherwise succeeds:
it deletes the line when the requested quantity reaches the line's quantity,
or decrements it by the requested amount, every other line keeping its value
and position. -/
theorem remove_from_cart_spec (cart : Cart) (pid q : Int) :
    (find_cart_item cart pid = none →
      remove_from_cart cart pid q = ((false, some ItemNotFound), cart))
  ∧ (∀ item, find_cart_item cart pid = some item → q ≤ 0 →
      remove_from_cart cart pid q = ((false, some InvalidQuantity), cart))
  ∧ (∀ item, find_cart_item cart pid = some item → 0 < q →
      ∃ pre post, cart = pre ++ item :: post
        ∧ (∀ l ∈ pre, l.product_id ≠ pid)
        ∧ item.product_id = pid
        ∧ (item.quantity ≤ q →
            remove_from_cart cart pid q = ((true, none), pre ++ post))
        ∧ (q < item.quantity →
            remove_from_cart cart pid q =
              ((true, none),
               pre ++ ⟨item.product_id, item.quantity - q⟩ :: post))) := by
  refine ⟨?_, ?_, ?_⟩
  · intro hfind
    simp [remove_from_cart, hfind]
  · intro item hfind hq
    simp [remove_from_cart, hfind, hq]
  · intro item hfind hq
    obtain ⟨pre, post, hc, hclean, hpid⟩ :=
      find_cart_item_some_decomp cart pid item hfind
    have hq' : ¬ q ≤ 0 := not_le.mpr hq
    refine ⟨pre, post, hc, hclean, hpid, ?_, ?_⟩
    · intro hge
      subst hc
      simp [remove_from_cart, hfind, hq', hge,
        removeFirst_of_clean pre post item pid hclean hpid]
    · intro hlt
      have hge' : ¬ item.quantity ≤ q := not_le.mpr hlt
      subst hc
      simp [remove_from_cart, hfind, hq', hge',
        updateFirst_of_clean pre post item pid _ hclean hpid]

/-- C2 witness: deleting, decrementing and the two failure modes on concrete
carts. -/
theorem remove_from_cart_spec_witness :
    remove_from_cart ([] : Cart) 1 1 = ((false, some ItemNotFound), [])
  ∧ remove_from_cart [⟨1, 5⟩] 1 0 = ((false, some InvalidQuantity), [⟨1, 5⟩])
  ∧ remove_from_cart [⟨1, 5⟩] 1 7 = ((true, none), [])
  ∧ remove_from_cart [⟨1, 5⟩] 1 2 = ((true, none), [⟨1, 3⟩]) := by
  refine ⟨(remove_from_cart_spec [] 1 1).1 (by decide),
    (remove_from_cart_spec [⟨1, 5⟩] 1 0).2.1 ⟨1, 5⟩ (by decide) (by decide),
    ?_, ?_⟩
  · obtain ⟨pre, post, hc, -, -, hdel, -⟩ :=
      (remove_from_cart_spec [⟨1, 5⟩] 1 7).2.2 ⟨1, 5⟩ (by decide) (by decide)
    rw [hdel (by decide)]
    cases pre <;> simp_all
  · obtain ⟨pre, post, hc, -, -, -, hdec⟩ :=
      (remove_from_cart_spec [⟨1, 5⟩] 1 2).2.2 ⟨1, 5⟩ (by decide) (by decide)
    rw [hdec (by decide)]
    cases pre <;> simp_all

/-- C10: whenever `remove_from_cart` fails the cart is returned exactly as
it was, and an absent product id yields the item-not-found error even when
the quantity is also `<= 0`, because that check is made first. -/
theorem remove_from_cart_failure_spec (cart : Cart) (pid q : Int) :
    (find_cart_item cart pid = none →
      remove_from_cart cart pid q = ((false, some ItemNotFound), cart))
  ∧ (∀ item, find_cart_item cart pid = some item → q ≤ 0 →
      remove_from_cart cart pid q = ((false, some InvalidQuantity), cart))
  ∧ ((remove_from_cart cart pid q).1.1 = false →
      (remove_from_cart cart pid q).2 = cart) := by
  refine ⟨?_, ?_, ?_⟩
  · intro hfind
    simp [remove_from_cart, hfind]
  · intro item hfind hq
    simp [remove_from_cart, hfind, hq]
  · intro hfail
    cases hfind : find_cart_item cart pid with
    | none => simp [remove_from_cart, hfind]
    | some item =>
        by_cases hq : q ≤ 0
        · simp [remove_from_cart, hfind, hq]
        · by_cases hge : item.quantity ≤ q
          · simp [remove_from_cart, hfind, hq, hge] at hfail
          · simp [remove_from_cart, hfind, hq, hge] at hfail

/-- C10 witness: an absent id with a non-positive quantity still reports
item-not-found, and the cart is unchanged. -/
theorem remove_from_cart_failure_spec_witness :
    remove_from_cart [⟨3, 2⟩] 1 0 = ((false, some ItemNotFound), [⟨3, 2⟩])
  ∧ (remove_from_cart [⟨3, 2⟩] 3 (-1)).2 = [⟨3, 2⟩] :=
  ⟨(remove_from_cart_failure_spec [⟨3, 2⟩] 1 0).1 (by decide),
   (remove_from_cart_failure_spec [⟨3, 2⟩] 3 (-1)).2.2 (by decide)⟩

/-- C3: every cart reachable from the empty cart through `add_to_cart`,
`remove_from_cart` and `checkout` has only lines whose product id is a
catalog key and whose quantity is positive, and each of the three operations
preserves that invariant. -/
theorem reachable_cart_WF (cart : Cart) (pid q : Int) :
    (Reachable cart → WF cart)
  ∧ (WF cart →
      WF (add_to_cart cart pid q).2
      ∧ WF (remove_from_cart cart pid q).2
      ∧ WF (checkout cart).2) := by
  constructor
  · intro h
    induction h with
    | empty => intro l hl; simp at hl
    | add c p k _ ih => exact add_to_cart_preserves_WF c p k ih
    | remove c p k _ ih => exact remove_from_cart_preserves_WF c p k ih
    | checkout c _ _ => intro l hl; simp [checkout] at hl
  · intro h
    refine ⟨add_to_cart_preserves_WF cart pid q h,
      remove_from_cart_preserves_WF cart pid q h, ?_⟩
    intro l hl
    simp [checkout] at hl

/-- C3 witness: the cart reached by two additions and a removal satisfies
the invariant. -/
theorem reachable_cart_WF_witness :
    WF (remove_from_cart (add_to_cart (add_to_cart [] 1 2).2 3 1).2 1 1).2 :=
  (reachable_cart_WF
      (remove_from_cart (add_to_cart (add_to_cart [] 1 2).2 3 1).2 1 1).2 1 1).1
    (Reachable.remove _ 1 1
      (Reachable.add _ 3 1 (Reachable.add [] 1 2 Reachable.empty)))

/-- C4: `checkout` returns exactly the `calculate_total` of the cart it is
given and hands back the empty cart; it has no failure outcome.  On the
cart `[{1,2},{3,1}]` it returns `2*120000 + 1*5000 = 245000`, and a second
immediate checkout returns `0`. -/
theorem checkout_spec (cart : Cart) :
    checkout cart = (calculate_total cart, [])
  ∧ checkout ([] : Cart) = (0, [])
  ∧ checkout [⟨1, 2⟩, ⟨3, 1⟩] = (245000, [])
  ∧ checkout (checkout [⟨1, 2⟩, ⟨3, 1⟩]).2 = (0, []) :=
  ⟨rfl, by decide, by decide, by decide⟩

/-- C5: `calculate_total` is the sum of `price * quantity` over the lines
whose product id resolves in the catalog, and `0` on the empty cart. -/
theorem calculate_total_spec (cart : Cart) :
    calculate_total cart =
      (cart.filterMap (fun item =>
        (productsGet item.product_id).map
          (fun prod => prod.price * item.quantity))).sum
  ∧ calculate_total ([] : Cart) = 0 := by
  refine ⟨?_, rfl⟩
  induction cart with
  | nil => rfl
  | cons item rest ih =>
      cases hp : productsGet item.product_id with
      | none => simp [calculate_total, hp, ih, List.filterMap_cons]
      | some prod => simp [calculate_total, hp, ih, List.filterMap_cons]

/-- C7: on a cart whose lines all have positive quantity, a successful
`add_to_cart` of a catalog product followed by `remove_from_cart` of the
same product and quantity restores the cart exactly: the appended line is
deleted again, or the incremented line returns to its previous quantity and
position. -/
theorem add_remove_round_trip (cart : Cart) (pid q : Int)
    (hcart : ∀ l ∈ cart, 0 < l.quantity)
    (hp : productsGet pid ≠ none) (hq : 0 < q) :
    (remove_from_cart (add_to_cart cart pid q).2 pid q).2 = cart := by
  have hq' : ¬ q ≤ 0 := not_le.mpr hq
  cases hfind : find_cart_item cart pid with
  | none =>
      have hclean : ∀ l ∈ cart, l.product_id ≠ pid :=
        (find_cart_item_eq_none_iff cart pid).mp hfind
      have hadd : (add_to_cart cart pid q).2 = cart ++ [⟨pid, q⟩] := by
        simp [add_to_cart, hp, hq', hfind]
      have hfind2 : find_cart_item (cart ++ [⟨pid, q⟩]) pid = some ⟨pid, q⟩ :=
        find_cart_item_of_clean cart [] ⟨pid, q⟩ pid hclean rfl
      have hrem : removeFirst (cart ++ [⟨pid, q⟩]) pid = cart ++ [] :=
        removeFirst_of_clean cart [] ⟨pid, q⟩ pid hclean rfl
      rw [hadd]
      simp [remove_from_cart, hfind2, hq', hrem]
  | some item =>
      obtain ⟨pre, post, hc, hclean, hpid⟩ :=
        find_cart_item_some_decomp cart pid item hfind
      have hqty : 0 < item.quantity := hcart item (by rw [hc]; simp)
      subst hc
      have hadd : (add_to_cart (pre ++ item :: post) pid q).2 =
          pre ++ ⟨item.product_id, item.quantity + q⟩ :: post := by
        simp [add_to_cart, hp, hq', hfind,
          updateFirst_of_clean pre post item pid _ hclean hpid]
      have hfind2 :
          find_cart_item (pre ++ ⟨item.product_id, item.quantity + q⟩ :: post)
            pid = some ⟨item.product_id, item.quantity + q⟩ :=
        find_cart_item_of_clean pre post _ pid hclean hpid
      have hnotle :
          ¬ (⟨item.product_id, item.quantity + q⟩ : CartLine).quantity ≤ q := by
        show ¬ item.quantity + q ≤ q
        omega
      have hupd :
          updateFirst (pre ++ ⟨item.product_id, item.quantity + q⟩ :: post) pid
            (fun l => { l with quantity := l.quantity - q }) =
          pre ++ ⟨item.product_id, item.quantity + q - q⟩ :: post :=
        updateFirst_of_clean pre post _ pid _ hclean hpid
      have hback : (⟨item.product_id, item.quantity + q - q⟩ : CartLine)
          = item := by
        cases item with
        | mk p n => simp
      rw [hadd]
      simp only [remove_from_cart, hfind2, if_neg hq', if_neg hnotle, hupd,
        hback]

/-- C7 witness: a fresh product is appended and then fully removed, and an
existing line is incremented and then decremented back. -/
theorem add_remove_round_trip_witness :
    (remove_from_cart (add_to_cart [⟨3, 2⟩] 1 4).2 1 4).2 = [⟨3, 2⟩]
  ∧ (remove_from_cart (add_to_cart [⟨3, 2⟩] 3 5).2 3 5).2 = [⟨3, 2⟩] :=
  ⟨add_remove_round_trip [⟨3, 2⟩] 1 4 (by decide) (by decide) (by decide),
   add_remove_round_trip [⟨3, 2⟩] 3 5 (by decide) (by decide) (by decide)⟩

/-- C8: `view_cart` turns the cart, in order, into one detail record per
line whose product id resolves in the catalog — carrying the catalog name
and price and the subtotal `price * quantity` — and silently skips any line
whose id does not resolve. -/
theorem view_cart_spec (cart : Cart) :
    view_cart cart =
      cart.filterMap (fun item =>
        (productsGet item.product_id).map (fun prod =>
          ⟨item.product_id, prod.name, prod.price, item.quantity,
           prod.price * item.quantity⟩)) := by
  induction cart with
  | nil => rfl
  | cons item rest ih =>
      cases hp : productsGet item.product_id with
      | none => simp [view_cart, hp, ih, List.filterMap_cons]
      | some prod => simp [view_cart, hp, ih, List.filterMap_cons]

/-- C9: `show_products` is the fixed five-product listing, its ids strictly
increasing, and it contains each catalog entry exactly once; as a constant
it is the same on every call. -/
theorem show_products_spec :
    show_products =
      [(1, "Laptop", 120000), (2, "Smartphone", 60000),
       (3, "Headphones", 5000), (4, "Keyboard", 2500), (5, "Mouse", 1500)]
  ∧ List.Pairwise (· < ·) (show_products.map (fun t => t.1))
  ∧ (PRODUCTS.all
      (fun e => show_products.count (e.1, e.2.name, e.2.price) == 1)) = true :=
  ⟨rfl, by decide, by decide⟩

end SimpleShop
